import Mathlib

/-!
Verification of the earnings-monitor pipeline (`src/earnings_bot.py` and
`src/earnings_monitor.py`) against its natural-language specification.

The Python code is shallowly embedded: pure fragments become Lean
functions; interaction with the environment (the CSV reader, the yfinance
provider, the Discord channel, the file system) is passed in as explicit
arguments describing the environment's answer, with `Except` modelling a
raised exception and `Option` a missing value; the side effects of one
scheduler cycle (mutating the in-memory dedup set, putting a batch on the
asyncio queue, writing the posted-earnings file) are reified as an explicit
trace of actions in program order.
-/

/-- A provider-reported earnings timestamp, at minute precision:
the calendar day (as an abstract day number) and the minute of that day.
Mirrors the `datetime` values flowing out of `stock.calendar`. -/
structure Timestamp where
  day : Nat
  minute : Nat
deriving DecidableEq, Repr

/-- One earnings event as built by `get_earnings_calendar`
(`src/earnings_bot.py` lines 53-57): the dict
`{'ticker': ..., 'company': ..., 'datetime': ...}`. -/
structure EarningsEvent where
  ticker : String
  company : String
  datetime : Timestamp
deriving DecidableEq, Repr

/-! ## Scheduler predicates (`earnings_monitor_loop`, lines 99-109) -/

/-- The firing predicate of the monitor loop,
`now.minute in [0, 30] and now.second < 5` (`src/earnings_bot.py` line 101,
identically `src/earnings_monitor.py` line 115). -/
def fetch_due (minute second : Nat) : Bool :=
  (minute == 0 || minute == 30) && decide (second < 5)

/-- Target-date selection inside the scheduled loop:
`for_tomorrow = now.hour >= 20` (`src/earnings_bot.py` line 103). -/
def monitor_for_tomorrow (hour : Nat) : Bool :=
  decide (hour ≥ 20)

/-- Target-date selection inside the on-demand `!earnings` command:
`for_tomorrow = datetime.now().hour >= 20` (`src/earnings_bot.py` line 131). -/
def command_for_tomorrow (hour : Nat) : Bool :=
  decide (hour ≥ 20)

/-- `target_date = datetime.today().date() + timedelta(days=1 if for_tomorrow
else 0)` (`src/earnings_bot.py` line 47), with the calendar date abstracted
to a day number. -/
def target_date (today : Nat) (for_tomorrow : Bool) : Nat :=
  today + (if for_tomorrow then 1 else 0)

/-- C9. The scheduler's fetch-due predicate holds exactly when the current
minute is 0 or 30 and the current second is strictly below 5; in particular
minute=30,second=3 is due, minute=30,second=7 is not due, and
minute=31,second=1 is not due. -/
theorem C9_fetch_due_spec (minute second : Nat) :
    (fetch_due minute second = true ↔
      ((minute = 0 ∨ minute = 30) ∧ second < 5)) ∧
    fetch_due 30 3 = true ∧ fetch_due 30 7 = false ∧ fetch_due 31 1 = false := by
  refine ⟨?_, by decide, by decide, by decide⟩
  simp [fetch_due, Nat.beq_eq_true_eq, or_comm]

/-- C10. For every wall-clock time, the selected target date is tomorrow
when the local hour is at or past 20 and today otherwise, and this same
cutoff rule is applied both by the scheduled scan (`earnings_monitor_loop`)
and by the on-demand `!earnings` command. -/
theorem C10_target_date_cutoff (hour today : Nat) :
    monitor_for_tomorrow hour = command_for_tomorrow hour ∧
    target_date today (monitor_for_tomorrow hour) =
      (if hour ≥ 20 then today + 1 else today) ∧
    target_date today (command_for_tomorrow hour) =
      (if hour ≥ 20 then today + 1 else today) ∧
    monitor_for_tomorrow 20 = true ∧ monitor_for_tomorrow 19 = false := by
  refine ⟨rfl, ?_, ?_, by decide, by decide⟩ <;>
    by_cases h : hour ≥ 20 <;>
      simp [monitor_for_tomorrow, command_for_tomorrow, target_date, h]

/-! ## Universe loader (`load_tickers`)

`pd.read_csv(TICKER_FILE)` followed by `df['Symbol'].dropna().unique()` is
embedded as an environment answer `read_csv : Except String (List (Option
String))` — the raised exception's message, or the `Symbol` column with
`none` for a null cell — followed by `dropna` (`filterMap id`) and `unique`
(first-occurrence-order deduplication). -/

/-- Pandas `unique`: keep the first occurrence of each value, in order. -/
def uniqueFirst (l : List String) : List String :=
  l.foldl (fun acc x => if x ∈ acc then acc else acc ++ [x]) []

/-- `load_tickers` of `src/earnings_bot.py` (lines 24-30): any exception from
the CSV read is caught, logged, and an empty list returned. -/
def load_tickers (read_csv : Except String (List (Option String))) :
    List String :=
  match read_csv with
  | .error _ => []
  | .ok col => uniqueFirst (col.filterMap id)

/-- `load_tickers` of `src/earnings_monitor.py` (lines 34-38): when the file
is absent it is first downloaded (`download_nasdaq_ticker_list`, which raises
on a non-200 response); nothing catches a download or read error, so either
propagates to the caller. -/
def monitor_load_tickers (file_exists download_ok : Bool)
    (read_csv : Except String (List (Option String))) :
    Except String (List String) :=
  if ¬file_exists ∧ ¬download_ok then
    .error "Tickerliste konnte nicht geladen werden."
  else
    match read_csv with
    | .error e => .error e
    | .ok col => .ok (uniqueFirst (col.filterMap id))

theorem mem_foldl_uniqueFirst (l : List String) (acc : List String)
    (x : String) :
    x ∈ l.foldl (fun acc x => if x ∈ acc then acc else acc ++ [x]) acc ↔
      x ∈ acc ∨ x ∈ l := by
  induction l generalizing acc with
  | nil => simp
  | cons hd tl ih =>
    simp only [List.foldl_cons]
    by_cases h : hd ∈ acc
    · simp only [if_pos h, ih, List.mem_cons]
      constructor
      · rintro (hx | hx)
        · exact Or.inl hx
        · exact Or.inr (Or.inr hx)
      · rintro (hx | rfl | hx)
        · exact Or.inl hx
        · exact Or.inl h
        · exact Or.inr hx
    · simp only [if_neg h, ih, List.mem_append, List.mem_singleton,
        List.mem_cons]
      tauto

theorem nodup_foldl_uniqueFirst (l : List String) (acc : List String)
    (hacc : acc.Nodup) :
    (l.foldl (fun acc x => if x ∈ acc then acc else acc ++ [x]) acc).Nodup := by
  induction l generalizing acc with
  | nil => simpa
  | cons hd tl ih =>
    simp only [List.foldl_cons]
    by_cases h : hd ∈ acc
    · simpa [h] using ih acc hacc
    · rw [if_neg h]
      refine ih (acc ++ [hd]) ?_
      simp [List.nodup_append, hacc, h]

/-- C4 counterexample. On a read error (missing or unreadable source file),
`load_tickers` of `src/earnings_bot.py` catches the exception and returns
the empty universe instead of propagating an error. -/
theorem C4_load_tickers_swallows_error :
    load_tickers (.error "FileNotFoundError") = [] := rfl

/-- C4 (amended). `load_tickers` of `src/earnings_bot.py` returns the
deduplicated non-null `Symbol` column on a successful read, but on a missing
or unreadable source it catches the error and returns an empty universe
(logging it) rather than propagating; the `src/earnings_monitor.py` variant
does propagate a read error. -/
theorem C4_load_tickers_spec (msg : String) (col : List (Option String)) :
    load_tickers (.error msg) = [] ∧
    (load_tickers (.ok col)).Nodup ∧
    (∀ s : String, s ∈ load_tickers (.ok col) ↔ some s ∈ col) ∧
    monitor_load_tickers true true (.error msg) = .error msg := by
  refine ⟨rfl, ?_, ?_, rfl⟩
  · exact nodup_foldl_uniqueFirst _ [] List.nodup_nil
  · intro s
    simp only [load_tickers, uniqueFirst, mem_foldl_uniqueFirst,
      List.not_mem_nil, false_or, List.mem_filterMap, id_eq]
    constructor
    · rintro ⟨a, ha, rfl⟩
      exact ha
    · intro h
      exact ⟨some s, h, rfl⟩

/-! ## Event source adapter (`get_next_earnings_for_ticker`, lines 33-43)

The body of the `try` block inspects `stock.calendar`; the possible
behaviours of that interaction are enumerated by `CalResult`: the provider
raises (fetch failure, timeout, attribute error on malformed data), the
calendar is empty, the earnings-date cell is null, or a timestamp comes
back. The bare `except: pass` means every raising branch falls through to
`return None`. -/

/-- Outcome of the provider interaction inside the `try` block. -/
inductive CalResult where
  | raise
  | emptyCal
  | nullDate
  | date (ts : Timestamp)
deriving DecidableEq, Repr

/-- `get_next_earnings_for_ticker` (`src/earnings_bot.py` lines 33-43,
identically `src/earnings_monitor.py` lines 43-53): only a non-null
timestamp in a non-empty calendar is returned; every other outcome,
including any raised exception, yields `None`. -/
def get_next_earnings_for_ticker (r : CalResult) : Option Timestamp :=
  match r with
  | .date ts => some ts
  | .raise => none
  | .emptyCal => none
  | .nullDate => none

/-! ## Scan engine (`get_earnings_calendar`, lines 45-59)

`fetch` is the per-ticker answer of `get_next_earnings_for_ticker`;
`info` models `yf.Ticker(ticker).info.get('shortName', 'Unbekannt')`:
`.error ()` when the `.info` lookup raises (nothing catches it there),
`.ok none` when the key is absent (the `.get` default applies),
`.ok (some name)` when present. The loop appends matching tickers in
universe order; a raised lookup aborts the whole call, discarding the
partial list. -/

def get_earnings_calendar (targetDate : Nat)
    (fetch : String → Option Timestamp)
    (info : String → Except Unit (Option String)) :
    List String → Except Unit (List EarningsEvent)
  | [] => .ok []
  | t :: rest =>
    match fetch t with
    | none => get_earnings_calendar targetDate fetch info rest
    | some ts =>
      if ts.day = targetDate then
        match info t with
        | .error e => .error e
        | .ok name =>
          (get_earnings_calendar targetDate fetch info rest).map
            (fun es => ⟨t, name.getD "Unbekannt", ts⟩ :: es)
      else get_earnings_calendar targetDate fetch info rest

/-- C6 counterexample. With a single ticker whose timestamp matches the
target date, an exception from the company-name lookup (`.info` raising)
propagates and fails the whole scan, instead of the lookup being best-effort. -/
theorem C6_company_lookup_fails_scan :
    get_earnings_calendar 1 (fun _ => some ⟨1, 540⟩) (fun _ => .error ())
      ["AAA"] = .error () := rfl

/-- C6 (amended). For a ticker whose timestamp matches the target date, the
company name comes from a secondary lookup that defaults to the placeholder
"Unbekannt" when the name key is absent; but when that lookup raises, the
error propagates and the whole scan fails rather than falling back to the
placeholder. -/
theorem C6_company_lookup_spec (t : String) (ts : Timestamp)
    (name : Option String) :
    get_earnings_calendar ts.day (fun _ => some ts) (fun _ => .ok name) [t] =
      .ok [⟨t, name.getD "Unbekannt", ts⟩] ∧
    get_earnings_calendar ts.day (fun _ => some ts) (fun _ => .ok none) [t] =
      .ok [⟨t, "Unbekannt", ts⟩] ∧
    get_earnings_calendar ts.day (fun _ => some ts) (fun _ => .error ()) [t] =
      .error () := by
  refine ⟨?_, ?_, ?_⟩ <;> simp [get_earnings_calendar, Except.map]

/-- C7. Every provider error inside `get_next_earnings_for_ticker` — a raised
exception (fetch failure, timeout, malformed data), an empty calendar, or a
null earnings date — yields `None` rather than propagating; consequently a
ticker whose fetch yields no timestamp is transparent to the scan: the scan
of a universe containing it equals the scan of the universe without it, so
the remaining tickers are still evaluated. -/
theorem C7_provider_errors_suppressed (targetDate : Nat)
    (fetch : String → Option Timestamp)
    (info : String → Except Unit (Option String))
    (u₁ u₂ : List String) (t : String) :
    get_next_earnings_for_ticker .raise = none ∧
    get_next_earnings_for_ticker .emptyCal = none ∧
    get_next_earnings_for_ticker .nullDate = none ∧
    (fetch t = none →
      get_earnings_calendar targetDate fetch info (u₁ ++ t :: u₂) =
        get_earnings_calendar targetDate fetch info (u₁ ++ u₂)) := by
  refine ⟨rfl, rfl, rfl, ?_⟩
  intro ht
  induction u₁ with
  | nil => simp [get_earnings_calendar, ht]
  | cons hd tl ih =>
    simp only [List.cons_append, get_earnings_calendar]
    cases fetch hd with
    | none => exact ih
    | some ts =>
      by_cases hday : ts.day = targetDate
      · simp only [if_pos hday]
        cases info hd with
        | error e => rfl
        | ok name =>
          simp only [List.append_eq]
          rw [ih]
      · simp only [if_neg hday]
        exact ih

/-! ## Reconciliation against the dedup store (`handle_earnings_summary`,
`src/earnings_bot.py` lines 83-93)

The Python `set` `already_posted` is embedded as a `Finset String`. The list
comprehension computing `new_earnings` is evaluated in full before the loop
that mutates `already_posted`, so the filter is against the incoming set.
The function returns the mutated set and the batch put on `message_queue`
(`none` when the `if new_earnings:` branch is not taken and nothing is
enqueued). -/

def handle_earnings_summary (earnings : List EarningsEvent)
    (already_posted : Finset String) :
    Finset String × Option (List EarningsEvent) :=
  let new_earnings := earnings.filter
    (fun e => decide (e.ticker ∉ already_posted))
  if new_earnings.isEmpty then (already_posted, none)
  else (new_earnings.foldl (fun s e => insert e.ticker s) already_posted,
        some new_earnings)

theorem handle_earnings_summary_eq (earnings : List EarningsEvent)
    (already : Finset String) :
    handle_earnings_summary earnings already =
      if (earnings.filter (fun e => decide (e.ticker ∉ already))).isEmpty
      then (already, none)
      else ((earnings.filter (fun e => decide (e.ticker ∉ already))).foldl
              (fun s e => insert e.ticker s) already,
            some (earnings.filter (fun e => decide (e.ticker ∉ already)))) := rfl

theorem mem_foldl_insert_ticker (l : List EarningsEvent) (s : Finset String)
    (t : String) :
    (t ∈ l.foldl (fun s e => insert e.ticker s) s) ↔
      t ∈ s ∨ ∃ e ∈ l, e.ticker = t := by
  induction l generalizing s with
  | nil => simp
  | cons hd tl ih =>
    simp only [List.foldl_cons, ih, Finset.mem_insert, List.mem_cons]
    constructor
    · rintro ((rfl | hs) | ⟨e, he, rfl⟩)
      · exact Or.inr ⟨hd, Or.inl rfl, rfl⟩
      · exact Or.inl hs
      · exact Or.inr ⟨e, Or.inr he, rfl⟩
    · rintro (hs | ⟨e, (rfl | he), rfl⟩)
      · exact Or.inl (Or.inr hs)
      · exact Or.inl (Or.inl rfl)
      · exact Or.inr ⟨e, he, rfl⟩

/-- C2. For every scan cycle with candidate list `earnings` and dedup set
`already_posted`: the enqueued batch is exactly the candidates whose ticker
is not in `already_posted`, in candidate order (and `none` when that filter
is empty); the resulting set holds exactly the old tickers plus the tickers
of those new candidates; and when every candidate's ticker is already in
the set, no batch is enqueued and the set is unchanged. -/
theorem C2_handle_earnings_summary_spec (earnings : List EarningsEvent)
    (already : Finset String) :
    ((handle_earnings_summary earnings already).2 =
      if (earnings.filter (fun e => decide (e.ticker ∉ already))).isEmpty
      then none
      else some (earnings.filter (fun e => decide (e.ticker ∉ already)))) ∧
    (∀ t : String, t ∈ (handle_earnings_summary earnings already).1 ↔
      t ∈ already ∨ ∃ e ∈ earnings, e.ticker = t ∧ e.ticker ∉ already) ∧
    ((∀ e ∈ earnings, e.ticker ∈ already) →
      (handle_earnings_summary earnings already).2 = none ∧
      (handle_earnings_summary earnings already).1 = already) := by
  have hfilter : ∀ e : EarningsEvent,
      e ∈ earnings.filter (fun e => decide (e.ticker ∉ already)) ↔
        e ∈ earnings ∧ e.ticker ∉ already := by
    intro e
    rw [List.mem_filter, decide_eq_true_eq]
  rw [handle_earnings_summary_eq]
  by_cases h : (earnings.filter (fun e => decide (e.ticker ∉ already))).isEmpty = true
  · have hempty : earnings.filter (fun e => decide (e.ticker ∉ already)) = [] :=
      List.isEmpty_iff.mp h
    rw [if_pos h, if_pos h]
    refine ⟨rfl, ?_, fun _ => ⟨rfl, rfl⟩⟩
    intro t
    constructor
    · exact fun ht => Or.inl ht
    · rintro (ht | ⟨e, he, rfl, hnot⟩)
      · exact ht
      · have : e ∈ earnings.filter (fun e => decide (e.ticker ∉ already)) :=
          (hfilter e).mpr ⟨he, hnot⟩
        rw [hempty] at this
        exact absurd this (List.not_mem_nil e)
  · rw [if_neg h, if_neg h]
    refine ⟨rfl, ?_, ?_⟩
    · intro t
      rw [mem_foldl_insert_ticker]
      constructor
      · rintro (ht | ⟨e, he, rfl⟩)
        · exact Or.inl ht
        · rcases (hfilter e).mp he with ⟨hmem, hnot⟩
          exact Or.inr ⟨e, hmem, rfl, hnot⟩
      · rintro (ht | ⟨e, he, rfl, hnot⟩)
        · exact Or.inl ht
        · exact Or.inr ⟨e, (hfilter e).mpr ⟨he, hnot⟩, rfl⟩
    · intro hall
      exfalso
      apply h
      rw [List.isEmpty_iff, List.filter_eq_nil_iff]
      intro e he
      simpa using hall e he

/-- C2 witness: with the sole candidate's ticker already posted, nothing is
enqueued and the set is unchanged. -/
theorem C2_handle_earnings_summary_spec_witness :
    (handle_earnings_summary [⟨"AAA", "AlphaCorp", ⟨1, 540⟩⟩]
      (insert "AAA" ∅)).2 = none ∧
    (handle_earnings_summary [⟨"AAA", "AlphaCorp", ⟨1, 540⟩⟩]
      (insert "AAA" ∅)).1 = insert "AAA" ∅ :=
  (C2_handle_earnings_summary_spec [⟨"AAA", "AlphaCorp", ⟨1, 540⟩⟩]
    (insert "AAA" ∅)).2.2 (by decide)

/-! ## One scheduler cycle as a trace of effects (C1)

A firing iteration of `earnings_monitor_loop` (`src/earnings_bot.py`
lines 99-107) performs, in program order: for each new event, the in-memory
`already_posted.add(e['ticker'])` (line 89); then
`await message_queue.put(new_earnings)` (line 90); then, back in the loop,
`save_posted(already_posted, POSTED_EARNINGS_FILE)` (line 106) — the durable
write of the dedup set. `cycle_trace` lists these effects in that order. -/

/-- One observable effect of a firing cycle. -/
inductive Effect where
  | markPosted (t : String)
  | enqueue (batch : List EarningsEvent)
  | persist (posted : Finset String)
deriving DecidableEq

def isEnqueue : Effect → Bool
  | .enqueue _ => true
  | _ => false

def isPersist : Effect → Bool
  | .persist _ => true
  | _ => false

/-- Effects of `handle_earnings_summary` in program order: the per-event
`add` calls, then the `message_queue.put` (nothing when `new_earnings` is
empty). -/
def handle_trace (earnings : List EarningsEvent) (already : Finset String) :
    List Effect :=
  let new_earnings := earnings.filter (fun e => decide (e.ticker ∉ already))
  if new_earnings.isEmpty then []
  else new_earnings.map (fun e => Effect.markPosted e.ticker) ++
    [Effect.enqueue new_earnings]

/-- Effects of one firing iteration of `earnings_monitor_loop`: the effects
of `handle_earnings_summary`, then the `save_posted` write of the updated
set. -/
def cycle_trace (earnings : List EarningsEvent) (already : Finset String) :
    List Effect :=
  handle_trace earnings already ++
    [Effect.persist (handle_earnings_summary earnings already).1]

theorem findIdx_append_of_none {α : Type} (p : α → Bool) (l₁ l₂ : List α)
    (h : ∀ a ∈ l₁, p a = false) :
    (l₁ ++ l₂).findIdx p = l₁.length + l₂.findIdx p := by
  induction l₁ with
  | nil => simp
  | cons hd tl ih =>
    have hhd : p hd = false := h hd (List.mem_cons_self hd tl)
    rw [List.cons_append, List.findIdx_cons, hhd]
    simp only [cond_false, List.length_cons]
    rw [ih (fun a ha => h a (List.mem_cons_of_mem hd ha))]
    omega

/-- C1 counterexample. In the cycle scanning the single fresh event AAA, the
batch is put on the delivery queue at trace position 1 and the durable dedup
write (`save_posted`) only happens at trace position 2: the write does not
complete before the batch is visible on the queue. -/
theorem C1_counterexample :
    ([(⟨"AAA", "AlphaCorp", ⟨1, 540⟩⟩ : EarningsEvent)].filter
      (fun e => decide (e.ticker ∉ (∅ : Finset String))) ≠ []) ∧
    ¬ ((cycle_trace [⟨"AAA", "AlphaCorp", ⟨1, 540⟩⟩] ∅).findIdx isPersist <
       (cycle_trace [⟨"AAA", "AlphaCorp", ⟨1, 540⟩⟩] ∅).findIdx isEnqueue) := by
  refine ⟨by decide, ?_⟩
  have h1 : (cycle_trace [⟨"AAA", "AlphaCorp", ⟨1, 540⟩⟩] ∅).findIdx isPersist = 2 := by
    rfl
  have h2 : (cycle_trace [⟨"AAA", "AlphaCorp", ⟨1, 540⟩⟩] ∅).findIdx isEnqueue = 1 := by
    rfl
  omega

/-- C1 (amended). For every scan cycle that discovers at least one new
event, the batch is made visible on the delivery queue strictly before the
durable write of the updated dedup set to the posted-earnings file: the
enqueue occupies an earlier trace position than the `save_posted` write
(the reverse of the ordering the specification demands). -/
theorem C1_enqueue_precedes_persist (earnings : List EarningsEvent)
    (already : Finset String)
    (h : earnings.filter (fun e => decide (e.ticker ∉ already)) ≠ []) :
    (cycle_trace earnings already).findIdx isEnqueue <
      (cycle_trace earnings already).findIdx isPersist := by
  have hne : (earnings.filter (fun e => decide (e.ticker ∉ already))).isEmpty = false := by
    rw [Bool.eq_false_iff]
    intro hc
    exact h (List.isEmpty_iff.mp hc)
  have htr : cycle_trace earnings already =
      (earnings.filter (fun e => decide (e.ticker ∉ already))).map
        (fun e => Effect.markPosted e.ticker) ++
      ([Effect.enqueue (earnings.filter (fun e => decide (e.ticker ∉ already)))] ++
       [Effect.persist (handle_earnings_summary earnings already).1]) := by
    rw [cycle_trace, handle_trace]
    simp only [hne, Bool.false_eq_true, if_neg, not_false_iff, List.append_assoc]
  have hmarks : ∀ a ∈ (earnings.filter
      (fun e => decide (e.ticker ∉ already))).map
        (fun e => Effect.markPosted e.ticker),
      isEnqueue a = false ∧ isPersist a = false := by
    intro a ha
    rcases List.mem_map.mp ha with ⟨e, _, rfl⟩
    exact ⟨rfl, rfl⟩
  rw [htr,
    findIdx_append_of_none isEnqueue _ _ (fun a ha => (hmarks a ha).1),
    findIdx_append_of_none isPersist _ _ (fun a ha => (hmarks a ha).2)]
  simp [List.findIdx_cons, isEnqueue, isPersist]

/-- C1 witness: a concrete cycle with one fresh event, where the enqueue
strictly precedes the dedup write. -/
theorem C1_enqueue_precedes_persist_witness :
    (cycle_trace [⟨"BBB", "BetaCorp", ⟨2, 600⟩⟩] ∅).findIdx isEnqueue <
      (cycle_trace [⟨"BBB", "BetaCorp", ⟨2, 600⟩⟩] ∅).findIdx isPersist :=
  C1_enqueue_precedes_persist [⟨"BBB", "BetaCorp", ⟨2, 600⟩⟩] ∅ (by decide)

/-! ## Persistence and the firing iteration under a write failure (C3, C5)

`save_posted` (`src/earnings_bot.py` lines 68-70) opens the posted-earnings
file with mode `"w"` — truncating it — and then serializes the set into it.
A failure after the truncating open leaves the file without its old
contents (invalid JSON at the extreme: empty). Nothing in
`earnings_monitor_loop` (lines 95-109) catches an exception: one escaping
`save_posted`, or a scan failure escaping `get_earnings_calendar`, leaves
the `while True` loop and ends the monitor task.

The on-disk store is modelled as `Option (Finset String)`: `some s` is a
valid JSON array denoting `s`, `none` an invalid (truncated) file. -/

/-- Whether the durable write performed by `save_posted` succeeds, or the
environment fails it after the truncating `open(file, "w")`. -/
inductive WriteOutcome where
  | ok
  | failAfterTruncate
deriving DecidableEq, Repr

/-- Observable state after one firing iteration of `earnings_monitor_loop`:
whether the iteration ran to completion (an escaped exception ends the
`while True` loop, so no further cycle runs), the in-memory dedup set, the
posted-earnings file, and the batch put on `message_queue` (if any). -/
structure CycleResult where
  completed : Bool
  posted : Finset String
  disk : Option (Finset String)
  queued : Option (List EarningsEvent)
deriving DecidableEq

/-- One firing iteration of `earnings_monitor_loop` (lines 104-107) given
the scan's candidates: `handle_earnings_summary` mutates the set and puts
the batch on the queue, then `save_posted` rewrites the file wholesale.
On a write failure the exception propagates — the set mutation and the
enqueue have already happened — and the file is left truncated. -/
def monitor_cycle (earnings : List EarningsEvent) (already : Finset String)
    (w : WriteOutcome) : CycleResult :=
  match w with
  | .ok =>
    ⟨true, (handle_earnings_summary earnings already).1,
      some (handle_earnings_summary earnings already).1,
      (handle_earnings_summary earnings already).2⟩
  | .failAfterTruncate =>
    ⟨false, (handle_earnings_summary earnings already).1, none,
      (handle_earnings_summary earnings already).2⟩

/-- C3 counterexample. In a cycle discovering the fresh event AAA whose
dedup write fails: the iteration does not complete (the exception escapes
the loop, so there is no retry on a next cycle), the batch was nevertheless
already enqueued, the on-disk store is left truncated (invalid, neither old
nor new contents), and the in-memory dedup state was already mutated. -/
theorem C3_counterexample :
    (monitor_cycle [⟨"AAA", "AlphaCorp", ⟨1, 540⟩⟩] ∅
      .failAfterTruncate).completed = false ∧
    (monitor_cycle [⟨"AAA", "AlphaCorp", ⟨1, 540⟩⟩] ∅
      .failAfterTruncate).queued ≠ none ∧
    (monitor_cycle [⟨"AAA", "AlphaCorp", ⟨1, 540⟩⟩] ∅
      .failAfterTruncate).disk = none ∧
    (monitor_cycle [⟨"AAA", "AlphaCorp", ⟨1, 540⟩⟩] ∅
      .failAfterTruncate).posted ≠ ∅ := by
  refine ⟨rfl, ?_, rfl, ?_⟩ <;> decide

/-- C3 (amended). If the durable write of the dedup store fails during a
cycle that discovered at least one new event, the batch for the affected
tickers has already been put on the queue and the in-memory dedup set
already updated before the write; the truncating in-place write leaves the
on-disk store invalid (partially written); and the escaped exception ends
the monitor loop, so the iteration does not complete and there is no retry
on a next cycle. -/
theorem C3_persistence_failure_behavior (earnings : List EarningsEvent)
    (already : Finset String) (e : EarningsEvent)
    (he : e ∈ earnings) (ht : e.ticker ∉ already) :
    (monitor_cycle earnings already .failAfterTruncate).completed = false ∧
    (monitor_cycle earnings already .failAfterTruncate).queued ≠ none ∧
    (monitor_cycle earnings already .failAfterTruncate).disk = none ∧
    (monitor_cycle earnings already .failAfterTruncate).posted ≠ already := by
  have hspec := C2_handle_earnings_summary_spec earnings already
  refine ⟨rfl, ?_, rfl, ?_⟩
  · show (handle_earnings_summary earnings already).2 ≠ none
    rw [hspec.1]
    have : (earnings.filter (fun e => decide (e.ticker ∉ already))).isEmpty = false := by
      rw [Bool.eq_false_iff]
      intro hc
      have hnil := List.isEmpty_iff.mp hc
      have : e ∈ earnings.filter (fun e => decide (e.ticker ∉ already)) := by
        rw [List.mem_filter, decide_eq_true_eq]
        exact ⟨he, ht⟩
      rw [hnil] at this
      exact List.not_mem_nil e this
    rw [this]
    simp
  · show (handle_earnings_summary earnings already).1 ≠ already
    intro hcontra
    have hmem : e.ticker ∈ (handle_earnings_summary earnings already).1 :=
      (hspec.2.1 e.ticker).mpr (Or.inr ⟨e, he, rfl, ht⟩)
    rw [hcontra] at hmem
    exact ht hmem

/-- C3 witness: the general failure-behaviour theorem at the concrete cycle
discovering BBB with a failing write. -/
theorem C3_persistence_failure_behavior_witness :
    (monitor_cycle [⟨"BBB", "BetaCorp", ⟨2, 600⟩⟩] ∅
      .failAfterTruncate).completed = false ∧
    (monitor_cycle [⟨"BBB", "BetaCorp", ⟨2, 600⟩⟩] ∅
      .failAfterTruncate).queued ≠ none ∧
    (monitor_cycle [⟨"BBB", "BetaCorp", ⟨2, 600⟩⟩] ∅
      .failAfterTruncate).disk = none ∧
    (monitor_cycle [⟨"BBB", "BetaCorp", ⟨2, 600⟩⟩] ∅
      .failAfterTruncate).posted ≠ ∅ :=
  C3_persistence_failure_behavior [⟨"BBB", "BetaCorp", ⟨2, 600⟩⟩] ∅
    ⟨"BBB", "BetaCorp", ⟨2, 600⟩⟩ (by decide) (by decide)

/-- The body of one `while True` iteration of `earnings_monitor_loop` at a
firing tick, with the scan's outcome passed in (`.error ()` when
`get_earnings_calendar` raises, e.g. from the uncaught `.info` lookup, or —
in `src/earnings_monitor.py` — from its uncaught `load_tickers`). No
`try`/`except` surrounds the body, so a scan error propagates out of the
loop and the monitor task ends. -/
def earnings_monitor_loop_body (scan : Except Unit (List EarningsEvent))
    (already : Finset String) (w : WriteOutcome) :
    Except Unit CycleResult :=
  match scan with
  | .error e => .error e
  | .ok earnings => .ok (monitor_cycle earnings already w)

/-- C5 counterexample. A Scan Engine failure is not caught by the monitor
loop: the exception propagates out of the iteration (ending the `while
True` loop and the monitor task) instead of being logged, the cycle
skipped, and the loop resuming at the next tick. -/
theorem C5_counterexample :
    earnings_monitor_loop_body (.error ()) ∅ .ok = .error () := rfl

/-- C5 (amended). A failure of the whole scan propagates out of the monitor
loop and terminates the monitoring task (no next tick), while a successful
scan completes the cycle; the failures the pipeline does absorb are caught
below the loop: `load_tickers` of `src/earnings_bot.py` swallows a universe
load error into an empty universe, and `get_next_earnings_for_ticker`
swallows per-ticker provider errors into `None`. -/
theorem C5_loop_failure_semantics (scan : Except Unit (List EarningsEvent))
    (already : Finset String) (w : WriteOutcome) (msg : String) :
    (scan = .error () → earnings_monitor_loop_body scan already w = .error ()) ∧
    (∀ earnings, scan = .ok earnings →
      earnings_monitor_loop_body scan already w =
        .ok (monitor_cycle earnings already w)) ∧
    load_tickers (.error msg) = [] ∧
    get_next_earnings_for_ticker .raise = none := by
  refine ⟨?_, ?_, rfl, rfl⟩
  · rintro rfl
    rfl
  · rintro earnings rfl
    rfl

/-- C5 witness: the loop-failure semantics at a concrete failing scan. -/
theorem C5_loop_failure_semantics_witness :
    earnings_monitor_loop_body (.error ()) (insert "AAA" ∅) .ok = .error () :=
  (C5_loop_failure_semantics (.error ()) (insert "AAA" ∅) .ok "boom").1 rfl

/-! ## Delivery worker (`post_earnings_to_discord`, `discord_message_sender`)

`post_earnings_to_discord` (`src/earnings_bot.py` lines 73-81) looks the
channel up; when `bot.get_channel` returns `None` it logs and returns,
dropping the batch. Otherwise it sends one message per event; nothing
catches an exception raised by `channel.send`, so it propagates into
`discord_message_sender` (lines 111-114), whose bare `while True` loop has
no handler either — the worker task ends. The channel lookup is `Option
Unit`; `send` is the sink's per-message answer. -/

/-- Sequential `await channel.send(msg)` over the batch: the first raised
exception propagates, abandoning the rest of the batch. -/
def send_all (send : EarningsEvent → Except Unit Unit) :
    List EarningsEvent → Except Unit Unit
  | [] => .ok ()
  | e :: rest =>
    match send e with
    | .error err => .error err
    | .ok _ => send_all send rest

def post_earnings_to_discord (channel : Option Unit)
    (send : EarningsEvent → Except Unit Unit)
    (earnings : List EarningsEvent) : Except Unit Unit :=
  match channel with
  | none => .ok ()
  | some _ => send_all send earnings

/-- One iteration of the `discord_message_sender` worker on a dequeued
batch: `.1` is whether the worker survives to await the next batch (an
escaped exception ends its `while True` loop), `.2` the batches it puts
back on the queue — the code has no re-enqueue path, so it is always
empty. -/
def discord_message_sender_step (channel : Option Unit)
    (send : EarningsEvent → Except Unit Unit)
    (batch : List EarningsEvent) : Bool × List (List EarningsEvent) :=
  match post_earnings_to_discord channel send batch with
  | .ok _ => (true, [])
  | .error _ => (false, [])

/-- C8 counterexample. When the sink is unavailable in the form of
`channel.send` raising, the exception escapes `discord_message_sender`: the
worker terminates instead of logging, dropping the batch, and continuing
with the next batch. -/
theorem C8_counterexample :
    (discord_message_sender_step (some ()) (fun _ => .error ())
      [⟨"CCC", "GammaCorp", ⟨3, 330⟩⟩]).1 = false := rfl

/-- C8 (amended). A dequeued batch is never re-enqueued and delivery never
touches the dedup state; when the sink is unavailable in the form of a
missing channel, the batch is dropped after logging and the worker
continues with the next batch; but when `channel.send` raises, the
exception propagates and the worker task terminates. -/
theorem C8_delivery_failure_semantics (channel : Option Unit)
    (send : EarningsEvent → Except Unit Unit) (batch : List EarningsEvent) :
    post_earnings_to_discord none send batch = .ok () ∧
    discord_message_sender_step none send batch = (true, []) ∧
    (discord_message_sender_step channel send batch).2 = [] ∧
    (post_earnings_to_discord channel send batch = .error () →
      discord_message_sender_step channel send batch = (false, [])) := by
  refine ⟨rfl, rfl, ?_, ?_⟩
  · rw [discord_message_sender_step]
    cases post_earnings_to_discord channel send batch <;> rfl
  · intro h
    rw [discord_message_sender_step, h]

/-- C8 witness: the delivery-failure semantics at a concrete raising sink,
whose failure terminates the worker. -/
theorem C8_delivery_failure_semantics_witness :
    discord_message_sender_step (some ()) (fun _ => .error ())
      [⟨"DDD", "DeltaCorp", ⟨4, 960⟩⟩] = (false, []) :=
  (C8_delivery_failure_semantics (some ()) (fun _ => .error ())
    [⟨"DDD", "DeltaCorp", ⟨4, 960⟩⟩]).2.2.2 rfl

/-- C7 witness: a ticker whose provider interaction raises is transparent to
the scan of a concrete three-ticker universe. -/
theorem C7_provider_errors_suppressed_witness :
    get_earnings_calendar 1
      (fun t => get_next_earnings_for_ticker
        (if t = "BAD" then .raise else .date ⟨1, 540⟩))
      (fun _ => .ok (some "AlphaCorp")) (["AAA"] ++ "BAD" :: ["CCC"]) =
    get_earnings_calendar 1
      (fun t => get_next_earnings_for_ticker
        (if t = "BAD" then .raise else .date ⟨1, 540⟩))
      (fun _ => .ok (some "AlphaCorp")) (["AAA"] ++ ["CCC"]) :=
  (C7_provider_errors_suppressed 1
    (fun t => get_next_earnings_for_ticker
      (if t = "BAD" then .raise else .date ⟨1, 540⟩))
    (fun _ => .ok (some "AlphaCorp")) ["AAA"] ["CCC"] "BAD").2.2.2
    (by simp [get_next_earnings_for_ticker])
